import Mathlib

/-!
Verification development for the meniscus elasticsearch sink
(`meniscus/sinks/elasticsearch/sink.py`): a shallow embedding of the
queue-backed bulk indexing pipeline — the index-request encoder
(`put_message` / `_queue_index_request`), the lazy queue consumer
(`get_queue_stream`), the bulk flush engine (`flush_to_es`), and the
worker-pool supervisor (`ElasticSearchStreamBulker`) — together with
theorems about acknowledgment ordering, fault containment, and lifecycle.
-/

namespace Meniscus

/-- Python exceptions that can arise in the sink module.  `keyError k` models
`KeyError(k)` from a failed dict subscript, `typeError` a subscript on a
non-dict, `empty` the `Queue.Empty` raised by kombu's `SimpleQueue.get` on
timeout, `broker` a connectivity failure talking to the broker, `backend` a
failure of the elasticsearch bulk call, and `indexError` the `IndexError`
raised by `list.pop(0)` on an empty list. -/
inductive PyExc where
  | keyError (k : String)
  | typeError
  | empty
  | broker
  | backend
  | indexError
deriving DecidableEq, Repr

/-- JSON-shaped documents, the values flowing through the pipeline
(correlated log messages and index actions). -/
inductive Json where
  | str (s : String)
  | num (n : Nat)
  | obj (fields : List (String × Json))
deriving Repr

/-- Python dict subscript `j[k]`: returns the value bound to `k`, raises
`KeyError(k)` when the key is absent, `TypeError` when `j` is not a dict. -/
def Json.getItem (j : Json) (k : String) : Except PyExc Json :=
  match j with
  | .obj fields =>
    match fields.lookup k with
    | some v => .ok v
    | none => .error (.keyError k)
  | _ => .error .typeError

/-- A message held by the durable queue: the payload delivered to the
consumer plus the opaque acknowledgment handle (delivery tag) that `msg.ack()`
presents back to the broker. -/
structure QueueMessage where
  payload : Json
  handle : Nat
deriving Repr

/-- Outcome of the acknowledgment walk in `flush_to_es` (the
`for response in bulker: msg = ack_list.pop(0); ... if msg_ok: msg.ack()`
loop) over one run of per-action results.  `acked` are the messages
acknowledged, in walk order; `pending` is what remains of the ack list;
`indexError` records whether `pop(0)` hit an empty list. -/
structure WalkResult where
  acked : List QueueMessage
  pending : List QueueMessage
  indexError : Bool
deriving Repr

/-- The acknowledgment walk of `flush_to_es` (sink.py lines 122–128): for
each per-action result in order, pop the oldest entry off the ack list and
acknowledge it exactly when the result reports success. -/
def walkResults : List Bool → List QueueMessage → WalkResult
  | [], pending => ⟨[], pending, false⟩
  | _ :: _, [] => ⟨[], [], true⟩
  | ok :: rest, m :: pending =>
    let w := walkResults rest pending
    ⟨if ok then m :: w.acked else w.acked, w.pending, w.indexError⟩

/-- Modelled from the spec: `str(uuid.uuid4())` (the external `uuid` library,
not part of this repository) supplies a freshly generated unique token on
every call — "a freshly generated `document_id` ... random unique token,
never reused".  We model the supply as an injective function of the number of
draws made so far; the caller threads the draw counter. -/
def uuidStr (n : Nat) : String := String.mk (List.replicate n 'u')

/-- Ambient state consumed by the encoder task: the uuid draw counter, the
module-level `TTL` constant (`es_handler.ttl`, resolved once from external
configuration), and the outcome of the broker I/O performed by
`_queue_index_request` (exchange/queue declaration and `producer.publish`) —
`none` when the publish succeeds, `some e` when the broker raises `e`. -/
structure EncodeEnv where
  uuidState : Nat
  TTL : Json
  publishOutcome : Option PyExc

/-- The index action dict built by `_queue_index_request` (sink.py lines
66–72): a dict literal with exactly the keys `_index`, `_type`, `_id`,
`_ttl`, `_source`, in that order. -/
def indexActionDict (env : EncodeEnv) (index doc_type document : Json) : Json :=
  Json.obj
    [("_index", index),
     ("_type", doc_type),
     ("_id", Json.str (uuidStr env.uuidState)),
     ("_ttl", env.TTL),
     ("_source", document)]

/-- Embedding of `_queue_index_request` (sink.py lines 50–80): declare the
exchange/queue topology, build the action dict, and publish it.  The broker
I/O may raise (modelled by `env.publishOutcome`); on success the durably
queued action is returned. -/
def _queue_index_request (env : EncodeEnv) (index doc_type document : Json) :
    Except PyExc Json :=
  match env.publishOutcome with
  | some e => .error e
  | none => .ok (indexActionDict env index doc_type document)

/-- The field lookups performed by `put_message`'s call to
`_queue_index_request` (sink.py lines 40–43), in Python's left-to-right
argument evaluation order: `message['meniscus']['tenant']`, then
`message['meniscus']['correlation']['pattern']`. -/
def encodeFields (message : Json) : Except PyExc (Json × Json) := do
  let men ← message.getItem "meniscus"
  let tenant ← men.getItem "tenant"
  let men2 ← message.getItem "meniscus"
  let corr ← men2.getItem "correlation"
  let pattern ← corr.getItem "pattern"
  pure (tenant, pattern)

/-- Outcome of one invocation of the celery task `put_message`: either the
index action was built and durably published, or an exception was caught by
the `except` clause, logged, and the task retried via `put_message.retry()`. -/
inductive TaskOutcome where
  | published (action : Json)
  | retried (logged : PyExc)
deriving Repr

/-- Predicate on a task outcome: the invocation ended in
`put_message.retry()`. -/
def TaskOutcome.isRetried : TaskOutcome → Bool
  | .published _ => false
  | .retried _ => true

/-- Embedding of the celery task `put_message` (sink.py lines 34–47): look up
the required fields and publish the index request; any exception raised in
the `try` block — a `KeyError`/`TypeError` from a missing field as well as a
broker failure — is caught, logged, and answered with `put_message.retry()`. -/
def put_message (env : EncodeEnv) (message : Json) : TaskOutcome :=
  match (do
      let (tenant, pattern) ← encodeFields message
      _queue_index_request env tenant pattern message : Except PyExc Json) with
  | .ok action => .published action
  | .error e => .retried e

/-- What the broker hands a worker on one blocking `simple_queue.get(block=True,
timeout=bulk_timeout)` call: a message, a timeout (kombu raises `Queue.Empty`),
or a connectivity error. -/
inductive PullEvent where
  | msg (m : QueueMessage)
  | timeout
  | brokerError
deriving Repr

/-- The messages a pull sequence delivers before its first non-message event
(the prefix actually consumed by one generator instance). -/
def pulledMsgs : List PullEvent → List QueueMessage
  | [] => []
  | .msg m :: rest => m :: pulledMsgs rest
  | .timeout :: _ => []
  | .brokerError :: _ => []

/-- Observable events of one `get_queue_stream` generator instance:
appending a message to the worker's ack list, yielding a payload to the
consumer of the stream, or terminating by raising an exception. -/
inductive StreamEvent where
  | append (m : QueueMessage)
  | emit (payload : Json)
  | raised (e : PyExc)
deriving Repr

/-- Embedding of the generator `get_queue_stream` (sink.py lines 83–99) as
its event trace over a broker pull sequence: each arriving message is
appended to the ack list and then its payload is yielded; a timeout raises
`Queue.Empty` out of the generator, a broker failure raises a connection
error, and either exception ends the stream. -/
def get_queue_stream : List PullEvent → List StreamEvent
  | [] => []
  | .msg m :: rest => .append m :: .emit m.payload :: get_queue_stream rest
  | .timeout :: _ => [.raised .empty]
  | .brokerError :: _ => [.raised .broker]

/-- The messages a stream trace appends to the ack list, in trace order. -/
def streamAppends : List StreamEvent → List QueueMessage
  | [] => []
  | .append m :: rest => m :: streamAppends rest
  | _ :: rest => streamAppends rest

/-- The payloads a stream trace yields, in trace order. -/
def streamEmits : List StreamEvent → List Json
  | [] => []
  | .emit p :: rest => p :: streamEmits rest
  | _ :: rest => streamEmits rest

/-- Result of the bulk-write HTTP call `streaming_bulk` issues for one chunk:
the backend's ordered per-action results `(success, detail)` — we keep the
success booleans — or a raised backend error. -/
inductive BulkOutcome where
  | ok (results : List Bool)
  | backendError

/-- External inputs to one iteration of `flush_to_es`'s outer `while True`
loop (one consume→flush cycle): the broker's pull sequence for this cycle's
private stream, and the backend's outcome for each successive bulk call. -/
structure CycleInput where
  pulls : List PullEvent
  bulk : Nat → BulkOutcome

/-- Observable outcome of one consume→flush cycle: the chunks submitted to
the backend's bulk endpoint, the messages acknowledged (in ack-call order),
the pulled-but-unacknowledged messages left on the ack list when the cycle
ended, and the exception — if any — that ended the cycle and was caught and
logged by the `except` clause (`none` means the input was exhausted with the
cycle still in progress). -/
structure CycleResult where
  bulkCalls : List (List Json)
  acked : List QueueMessage
  abandoned : List QueueMessage
  caught : Option PyExc
deriving Repr

/-- Internal state of one cycle: the worker's ack list (all pulled,
not-yet-acknowledged messages, oldest first), `streaming_bulk`'s buffer of
actions for the chunk under construction, the index of the next bulk call,
and the accumulated submitted chunks and acknowledged messages. -/
structure CycleState where
  ackList : List QueueMessage
  chunkBuf : List Json
  chunkIdx : Nat
  bulkCalls : List (List Json)
  acked : List QueueMessage

/-- One consume→flush cycle of `flush_to_es` (sink.py lines 114–131),
driven by the pull sequence.  `streaming_bulk` draws actions from
`get_queue_stream` (each draw appends the message to the ack list) and
buffers them; when the buffer reaches `chunk_size` it performs the bulk call
and yields the per-action results, which the inner `for` loop walks —
popping the oldest ack-list entry per result and acknowledging it on
success.  A timeout or broker error raised by the generator, a backend
error raised by the bulk call, and an `IndexError` raised by `pop(0)` all
propagate to the `except` clause, ending the cycle; a partially filled
chunk buffer is never submitted. -/
def runCycleAux (chunk_size : Nat) (bulk : Nat → BulkOutcome) :
    List PullEvent → CycleState → CycleResult
  | [], s => ⟨s.bulkCalls, s.acked, s.ackList, none⟩
  | .timeout :: _, s => ⟨s.bulkCalls, s.acked, s.ackList, some .empty⟩
  | .brokerError :: _, s => ⟨s.bulkCalls, s.acked, s.ackList, some .broker⟩
  | .msg m :: rest, s =>
    let ackList := s.ackList ++ [m]
    let chunkBuf := s.chunkBuf ++ [m.payload]
    if chunkBuf.length = chunk_size then
      match bulk s.chunkIdx with
      | .backendError =>
        ⟨s.bulkCalls ++ [chunkBuf], s.acked, ackList, some .backend⟩
      | .ok results =>
        let w := walkResults results ackList
        if w.indexError then
          ⟨s.bulkCalls ++ [chunkBuf], s.acked ++ w.acked, w.pending,
            some .indexError⟩
        else
          runCycleAux chunk_size bulk rest
            ⟨w.pending, [], s.chunkIdx + 1, s.bulkCalls ++ [chunkBuf],
              s.acked ++ w.acked⟩
    else
      runCycleAux chunk_size bulk rest ⟨ackList, chunkBuf, s.chunkIdx, s.bulkCalls, s.acked⟩

/-- One cycle started from the fresh state the loop body builds:
`ack_list = list()` (empty), an empty chunk buffer, and no calls yet. -/
def runCycle (chunk_size : Nat) (c : CycleInput) : CycleResult :=
  runCycleAux chunk_size c.bulk c.pulls ⟨[], [], 0, [], []⟩

/-- Modelled from the spec: the module-level constant
`BULK_SIZE = es_handler.bulk_size` — "`bulk_size` (positive integer)",
resolved once at import from external configuration
(`meniscus.data.handlers.elasticsearch` is not among the sampled sources).
The configured value is opaque; we fix an arbitrary positive count. -/
def BULK_SIZE : Nat := 60

/-- Per-cycle record kept by the worker loop: the identifier of the
connection acquired from `es_handler.connection` at the top of this
iteration, and the cycle's observable outcome. -/
structure WorkerCycleLog where
  connId : Nat
  result : CycleResult

/-- Embedding of `flush_to_es`'s outer `while True` loop (sink.py lines
103–131) over a sequence of per-cycle external inputs, threading the index of
the next connection acquisition.  Each iteration acquires a fresh backend
connection, builds a fresh empty ack list and a fresh generator, runs the
consume→flush cycle with `chunk_size=BULK_SIZE`, and — when the cycle ends in
an exception — catches and logs it and loops again; no exception escapes and
the loop never returns. -/
def flush_to_es (bulk_timeout : Nat) : List CycleInput → Nat → List WorkerCycleLog
  | [], _ => []
  | c :: rest, n => ⟨n, runCycle BULK_SIZE c⟩ :: flush_to_es bulk_timeout rest (n + 1)

/-- Embedding of the `ElasticSearchStreamBulker` object (sink.py lines
134–161): the configuration captured by `__init__`. -/
structure ElasticSearchStreamBulker where
  bulk_size : Nat
  bulk_timeout : Nat
  concurrency : Nat

/-- The constructor `ElasticSearchStreamBulker.__init__` (sink.py lines
139–145): store `bulk_size` and `bulk_timeout`; `concurrency` defaults to
`cpu_count()` when `None` is passed. -/
def mkBulker (bulk_size bulk_timeout : Nat) (concurrency : Option Nat)
    (cpu_count : Nat) : ElasticSearchStreamBulker :=
  ⟨bulk_size, bulk_timeout, concurrency.getD cpu_count⟩

/-- Effects of `ElasticSearchStreamBulker.start` (sink.py lines 147–161) on
the process: the size of the created pool, the set of signal numbers for
which a handler was installed via `signal.signal`, and the argument list
mapped over the pool (`[self.bulk_timeout for x in range(self.concurrency)]`,
each element an invocation `flush_to_es(bulk_timeout)`). -/
structure StartEffects where
  poolSize : Nat
  registeredSignals : List Nat
  taskArgs : List Nat

/-- The body of the local function `signal_handler` defined inside `start`
(sink.py lines 152–156), as the sequence of steps it would perform if it
ran. -/
inductive ShutdownStep where
  | poolClose
  | poolJoin
  | logStopped
  | sysExit
deriving DecidableEq, Repr

/-- The shutdown sequence `signal_handler` would perform:
`self.pool.close()`, `self.pool.join()`, log, `sys.exit(0)`. -/
def signal_handler : List ShutdownStep :=
  [.poolClose, .poolJoin, .logStopped, .sysExit]

/-- Embedding of `ElasticSearchStreamBulker.start`: create a pool of
`self.concurrency` workers and map `flush_to_es` over one `bulk_timeout`
argument per worker.  The local `signal_handler` is defined but `start`
contains no `signal.signal(...)` call, so no handler is registered for any
signal. -/
def ElasticSearchStreamBulker.start (self : ElasticSearchStreamBulker) :
    StartEffects :=
  { poolSize := self.concurrency
  , registeredSignals := []
  , taskArgs := List.replicate self.concurrency self.bulk_timeout }

/-- The worker computation `start` submits to the pool: `pool.map` applies
`flush_to_es` to each element of the argument list, so every worker runs
`flush_to_es(self.bulk_timeout)`. -/
def runStartedWorker (self : ElasticSearchStreamBulker)
    (cycles : List CycleInput) : List WorkerCycleLog :=
  flush_to_es self.bulk_timeout cycles 0

/-- POSIX termination-signal number used by the model. -/
def SIGTERM : Nat := 15

/-- What delivering a termination signal to the started process does.
Modelled from the spec ("a termination signal triggers the shutdown sequence
of §4.5") together with POSIX semantics: the process runs the shutdown
sequence only if a handler was registered for the signal; otherwise the
default disposition abruptly terminates the process, with no `pool.close()`
or `pool.join()` and no waiting for workers. -/
inductive SignalOutcome where
  | handlerRuns (steps : List ShutdownStep)
  | defaultAbruptKill
deriving DecidableEq, Repr

/-- Deliver `SIGTERM` to the process after `start`: run the registered
handler when one exists, else the default disposition kills the process. -/
def deliverTermSignal (eff : StartEffects) : SignalOutcome :=
  if eff.registeredSignals.contains SIGTERM then .handlerRuns signal_handler
  else .defaultAbruptKill

/-- The keys of a JSON object, in declaration order. -/
def Json.keys : Json → List String
  | .obj fields => fields.map Prod.fst
  | _ => []

/-- Concrete queue message carrying action id "A" (spec scenario). -/
def msgA : QueueMessage := ⟨Json.str "A", 1⟩

/-- Concrete queue message carrying action id "B" (spec scenario). -/
def msgB : QueueMessage := ⟨Json.str "B", 2⟩

/-- Concrete queue message carrying action id "C" (spec scenario). -/
def msgC : QueueMessage := ⟨Json.str "C", 3⟩

/-- Default queue message used as the out-of-range value of `List.getD`. -/
def defaultMsg : QueueMessage := ⟨Json.obj [], 0⟩

/-- Default cycle input used as the out-of-range value of `List.getD`. -/
def defaultCycleInput : CycleInput := ⟨[], fun _ => .ok []⟩

/-- Default worker-cycle log used as the out-of-range value of `List.getD`. -/
def defaultLog : WorkerCycleLog := ⟨0, ⟨[], [], [], none⟩⟩

/-- A concrete one-cycle trace: one message arrives, then the pull times
out. -/
def oneMsgThenTimeout : CycleInput :=
  ⟨[PullEvent.msg msgA, PullEvent.timeout], fun _ => BulkOutcome.ok []⟩

/-- The `correlation` sub-document of the well-formed sample message. -/
def goodCorr : Json := Json.obj [("pattern", Json.str "p1")]

/-- The `meniscus` sub-document of the well-formed sample message. -/
def goodMen : Json :=
  Json.obj [("tenant", Json.str "t1"), ("correlation", goodCorr)]

/-- A well-formed correlated message carrying both required fields. -/
def goodMsg : Json := Json.obj [("meniscus", goodMen)]

/-- A malformed correlated message: the `meniscus` sub-document lacks the
required `tenant` field. -/
def badMsg : Json := Json.obj [("meniscus", Json.obj [])]

/-- A concrete encoder environment: first uuid draw, expiry 30, healthy
broker. -/
def env0 : EncodeEnv := ⟨0, Json.num 30, none⟩

/-- One-cycle trace that pulls a full `BULK_SIZE`-sized chunk of messages,
all of which the backend indexes successfully, and then times out. -/
def fullChunkCycle : CycleInput :=
  ⟨List.replicate BULK_SIZE (PullEvent.msg msgA) ++ [PullEvent.timeout],
   fun _ => BulkOutcome.ok (List.replicate BULK_SIZE true)⟩

section Lemmas

/-- The uuid token supply never repeats a token: distinct draws yield
distinct tokens. -/
theorem uuidStr_injective : Function.Injective uuidStr := by
  intro m n h
  have hlen : (uuidStr m).length = (uuidStr n).length := by rw [h]
  simpa [uuidStr, String.length] using hlen

/-- Characterization of the acknowledgment walk: the acknowledged messages
are exactly the pending entries paired positionally with a success result,
in order. -/
theorem walkResults_acked (results : List Bool) (pending : List QueueMessage) :
    (walkResults results pending).acked
      = ((pending.zip results).filter (fun q => q.2)).map Prod.fst := by
  induction results generalizing pending with
  | nil => cases pending <;> simp [walkResults]
  | cons r rest ih =>
    cases pending with
    | nil => simp [walkResults]
    | cons m ms =>
      by_cases hr : r = true <;> simp [walkResults, hr, ih]

/-- The walk pops entries off the front: what remains of the pending list is
the original list with the first `results.length` entries removed. -/
theorem walkResults_pending (results : List Bool) (pending : List QueueMessage) :
    (walkResults results pending).pending = pending.drop results.length := by
  induction results generalizing pending with
  | nil => cases pending <;> simp [walkResults]
  | cons r rest ih =>
    cases pending with
    | nil => simp [walkResults]
    | cons m ms => simp [walkResults, ih]

/-- Acknowledgments preserve pull order: the acknowledged messages form a
sublist of the pending list. -/
theorem walkResults_acked_sublist (results : List Bool)
    (pending : List QueueMessage) :
    (walkResults results pending).acked.Sublist pending := by
  induction results generalizing pending with
  | nil => cases pending <;> simp [walkResults]
  | cons r rest ih =>
    cases pending with
    | nil => simp [walkResults]
    | cons m ms =>
      by_cases hr : r = true
      · simpa [walkResults, hr] using (ih ms).cons₂ m
      · simpa [walkResults, hr] using (ih ms).cons m

/-- Every acknowledged message sits at a position whose result reported
success. -/
theorem walkResults_acked_mem (results : List Bool)
    (pending : List QueueMessage) (m : QueueMessage)
    (hm : m ∈ (walkResults results pending).acked) :
    ∃ k, k < results.length ∧ k < pending.length
      ∧ results.getD k false = true ∧ pending.getD k defaultMsg = m := by
  induction results generalizing pending with
  | nil => cases pending <;> simp [walkResults] at hm
  | cons r rest ih =>
    cases pending with
    | nil => simp [walkResults] at hm
    | cons p ps =>
      by_cases hr : r = true
      · simp only [walkResults, hr, if_pos rfl] at hm
        rcases List.mem_cons.mp hm with h | h
        · exact ⟨0, by simp, by simp, by simp [hr], by simp [h.symm]⟩
        · obtain ⟨k, hk1, hk2, hk3, hk4⟩ := ih ps h
          exact ⟨k + 1, by simpa using Nat.succ_lt_succ hk1,
            by simpa using Nat.succ_lt_succ hk2,
            by simpa using hk3, by simpa using hk4⟩
      · simp only [walkResults, hr, if_false, Bool.false_eq_true] at hm
        obtain ⟨k, hk1, hk2, hk3, hk4⟩ := ih ps hm
        exact ⟨k + 1, by simpa using Nat.succ_lt_succ hk1,
          by simpa using Nat.succ_lt_succ hk2,
          by simpa using hk3, by simpa using hk4⟩

/-- Cycle-state invariant: every message the rest of a cycle acknowledges or
abandons was already accounted for — previously acknowledged, on the ack
list, or among the messages this cycle still pulls. -/
theorem runCycleAux_mem (chunk_size : Nat) (bulk : Nat → BulkOutcome)
    (pulls : List PullEvent) :
    ∀ s : CycleState,
    (∀ x ∈ (runCycleAux chunk_size bulk pulls s).acked,
        x ∈ s.acked ∨ x ∈ s.ackList ∨ x ∈ pulledMsgs pulls)
      ∧ (∀ x ∈ (runCycleAux chunk_size bulk pulls s).abandoned,
        x ∈ s.ackList ∨ x ∈ pulledMsgs pulls) := by
  induction pulls with
  | nil =>
    intro s
    exact ⟨fun x hx => Or.inl (by simpa [runCycleAux] using hx),
           fun x hx => Or.inl (by simpa [runCycleAux] using hx)⟩
  | cons ev rest ih =>
    intro s
    cases ev with
    | timeout =>
      exact ⟨fun x hx => Or.inl (by simpa [runCycleAux] using hx),
             fun x hx => Or.inl (by simpa [runCycleAux] using hx)⟩
    | brokerError =>
      exact ⟨fun x hx => Or.inl (by simpa [runCycleAux] using hx),
             fun x hx => Or.inl (by simpa [runCycleAux] using hx)⟩
    | msg m =>
      have hlist : ∀ x : QueueMessage, x ∈ s.ackList ++ [m] →
          x ∈ s.ackList ∨ x ∈ pulledMsgs (PullEvent.msg m :: rest) := by
        intro x hx
        rcases List.mem_append.mp hx with h | h
        · exact Or.inl h
        · right
          have : x = m := List.mem_singleton.mp h
          simp [pulledMsgs, this]
      have hwalk : ∀ results : List Bool, ∀ x : QueueMessage,
          x ∈ (walkResults results (s.ackList ++ [m])).acked
            ∨ x ∈ (walkResults results (s.ackList ++ [m])).pending →
          x ∈ s.ackList ∨ x ∈ pulledMsgs (PullEvent.msg m :: rest) := by
        intro results x hx
        refine hlist x ?_
        rcases hx with h | h
        · exact (walkResults_acked_sublist results _).subset h
        · rw [walkResults_pending] at h
          exact List.drop_subset _ _ h
      by_cases hlen : (s.chunkBuf ++ [m.payload]).length = chunk_size
      · cases hb : bulk s.chunkIdx with
        | backendError =>
          refine ⟨fun x hx => ?_, fun x hx => ?_⟩
          · exact Or.inl (by simpa [runCycleAux, hlen, hb] using hx)
          · exact hlist x (by simpa [runCycleAux, hlen, hb] using hx)
        | ok results =>
          by_cases hie : (walkResults results (s.ackList ++ [m])).indexError = true
          · refine ⟨fun x hx => ?_, fun x hx => ?_⟩
            · have hx' : x ∈ s.acked ∨ x ∈ (walkResults results (s.ackList ++ [m])).acked := by
                have := (by simpa [runCycleAux, hlen, hb, hie] using hx :
                  x ∈ s.acked ++ (walkResults results (s.ackList ++ [m])).acked)
                exact List.mem_append.mp this
              rcases hx' with h | h
              · exact Or.inl h
              · exact Or.inr (hwalk results x (Or.inl h))
            · have hx' : x ∈ (walkResults results (s.ackList ++ [m])).pending := by
                simpa [runCycleAux, hlen, hb, hie] using hx
              exact hwalk results x (Or.inr hx')
          · have hred : runCycleAux chunk_size bulk (PullEvent.msg m :: rest) s
                = runCycleAux chunk_size bulk rest
                    ⟨(walkResults results (s.ackList ++ [m])).pending, [],
                      s.chunkIdx + 1, s.bulkCalls ++ [s.chunkBuf ++ [m.payload]],
                      s.acked ++ (walkResults results (s.ackList ++ [m])).acked⟩ := by
              simp [runCycleAux, hlen, hb, hie]
            refine ⟨fun x hx => ?_, fun x hx => ?_⟩
            · rw [hred] at hx
              rcases (ih _).1 x hx with h | h | h
              · rcases List.mem_append.mp h with h' | h'
                · exact Or.inl h'
                · exact Or.inr (hwalk results x (Or.inl h'))
              · exact Or.inr (hwalk results x (Or.inr h))
              · exact Or.inr (Or.inr (by simp [pulledMsgs, h]))
            · rw [hred] at hx
              rcases (ih _).2 x hx with h | h
              · exact hwalk results x (Or.inr h)
              · exact Or.inr (by simp [pulledMsgs, h])
      · have hred : runCycleAux chunk_size bulk (PullEvent.msg m :: rest) s
            = runCycleAux chunk_size bulk rest
                ⟨s.ackList ++ [m], s.chunkBuf ++ [m.payload], s.chunkIdx,
                  s.bulkCalls, s.acked⟩ := by
          have hlen' : ¬(s.chunkBuf.length + 1 = chunk_size) := by simpa using hlen
          simp [runCycleAux, hlen']
        refine ⟨fun x hx => ?_, fun x hx => ?_⟩
        · rw [hred] at hx
          rcases (ih _).1 x hx with h | h | h
          · exact Or.inl h
          · exact Or.inr (hlist x h)
          · exact Or.inr (Or.inr (by simp [pulledMsgs, h]))
        · rw [hred] at hx
          rcases (ih _).2 x hx with h | h
          · exact hlist x h
          · exact Or.inr (by simp [pulledMsgs, h])

/-- The worker loop produces one log entry per cycle input: no cycle's
exception terminates it early. -/
theorem flush_to_es_length (bulk_timeout : Nat) (cycles : List CycleInput)
    (n : Nat) : (flush_to_es bulk_timeout cycles n).length = cycles.length := by
  induction cycles generalizing n with
  | nil => rfl
  | cons c rest ih => simp [flush_to_es, ih]

/-- The `i`-th iteration of the worker loop acquires the `i`-th fresh
connection and runs the `i`-th cycle from a fresh empty state, independent of
every earlier cycle's outcome. -/
theorem flush_to_es_getD (bulk_timeout : Nat) (cycles : List CycleInput)
    (n i : Nat) (hi : i < cycles.length) :
    (flush_to_es bulk_timeout cycles n).getD i defaultLog
      = ⟨n + i, runCycle BULK_SIZE (cycles.getD i defaultCycleInput)⟩ := by
  induction cycles generalizing n i with
  | nil => simp at hi
  | cons c rest ih =>
    cases i with
    | zero => simp [flush_to_es]
    | succ j =>
      have hj : j < rest.length := by simpa using hi
      have := ih (n + 1) j hj
      simp only [flush_to_es, List.getD_cons_succ, this]
      congr 1
      omega

/-- Reduction of the task body: `put_message` publishes the built action when
both the field lookups and the broker publish succeed, and retries on the
first exception raised inside the `try` block. -/
theorem put_message_eq (env : EncodeEnv) (message : Json) :
    put_message env message
      = match encodeFields message with
        | .ok (tenant, pattern) =>
          match _queue_index_request env tenant pattern message with
          | .ok action => .published action
          | .error e => .retried e
        | .error e => .retried e := by
  unfold put_message
  cases h : encodeFields message with
  | ok tp =>
    cases tp with
    | mk tenant pattern =>
      simp only [h, bind, Except.bind]
  | error e => simp only [h, bind, Except.bind]

end Lemmas

/-- C1: the bulk flush engine walks the backend's ordered per-action results,
popping the oldest PendingAckList entry for each result, and acknowledges
that entry's queue message exactly when its result reports success — the
acknowledged messages are the chunk entries positionally paired with a
success result, and the walk drains the whole chunk.  In the spec's concrete
scenario with results (A: success, B: failure, C: success), A and C are
acknowledged (removed from the durable queue) and B is left unacknowledged. -/
theorem ack_iff_success (results : List Bool) (chunk : List QueueMessage)
    (h : results.length = chunk.length) :
    (walkResults results chunk).acked
        = ((chunk.zip results).filter (fun q => q.2)).map Prod.fst
      ∧ (walkResults results chunk).pending = []
      ∧ (walkResults [true, false, true] [msgA, msgB, msgC]).acked = [msgA, msgC]
      ∧ (walkResults [true, false, true] [msgA, msgB, msgC]).pending = [] := by
  refine ⟨walkResults_acked _ _, ?_, rfl, rfl⟩
  rw [walkResults_pending, h, List.drop_length]

/-- Witness for C1 at the spec's concrete three-action scenario. -/
theorem ack_iff_success_witness :
    ([true, false, true] : List Bool).length = [msgA, msgB, msgC].length
      ∧ ((walkResults [true, false, true] [msgA, msgB, msgC]).acked
            = (([msgA, msgB, msgC].zip [true, false, true]).filter
                (fun q => q.2)).map Prod.fst
          ∧ (walkResults [true, false, true] [msgA, msgB, msgC]).pending = []
          ∧ (walkResults [true, false, true] [msgA, msgB, msgC]).acked
              = [msgA, msgC]
          ∧ (walkResults [true, false, true] [msgA, msgB, msgC]).pending = []) :=
  ⟨rfl, ack_iff_success [true, false, true] [msgA, msgB, msgC] rfl⟩

/-- C2 counterexample: for messages m1, m2, m3 walked against results
(success, failure, success), the entry after the failing position is
acknowledged — m3 is not left unacknowledged, refuting the claim that a
failure at position 2 leaves every subsequent entry of the chunk
unacknowledged. -/
theorem failure_midchunk_counterexample :
    (walkResults [true, false, true] [msgA, msgB, msgC]).acked = [msgA, msgC]
      ∧ msgC ∈ (walkResults [true, false, true] [msgA, msgB, msgC]).acked := by
  refine ⟨rfl, ?_⟩
  show msgC ∈ [msgA, msgC]
  exact List.mem_cons_of_mem _ (List.mem_singleton_self _)

/-- C2 amended: for a worker that pulls m1, m2, m3 and submits them as one
chunk, acknowledgment calls occur in pull order, matching the backend's
result order (the acknowledged messages form a sublist of the chunk); a
result failure at position 2 leaves m2 unacknowledged, while every other
entry is acknowledged exactly when its own result reports success. -/
theorem failure_midchunk_amended (m1 m2 m3 : QueueMessage) (r1 r3 : Bool) :
    (walkResults [r1, false, r3] [m1, m2, m3]).acked
        = (if r1 then [m1] else []) ++ (if r3 then [m3] else [])
      ∧ ∀ (results : List Bool) (chunk : List QueueMessage),
          (walkResults results chunk).acked.Sublist chunk := by
  constructor
  · by_cases h1 : r1 = true <;> by_cases h3 : r3 = true <;>
      simp [walkResults, h1, h3]
  · exact fun results chunk => walkResults_acked_sublist results chunk

/-- C3: the queue consumer appends each pulled message to the worker's
PendingAckList before yielding its payload (the generator's trace for an
arriving message is append-then-emit); over any pull sequence the appended
messages equal the pulled messages in pull order and the emitted payloads
are their payloads in the same order; and the flush walk consumes the list
from the front, so after k results the PendingAckList is exactly the pulled
suffix not yet walked. -/
theorem pending_list_fifo :
    (∀ (m : QueueMessage) (rest : List PullEvent),
        get_queue_stream (PullEvent.msg m :: rest)
          = StreamEvent.append m :: StreamEvent.emit m.payload
              :: get_queue_stream rest)
      ∧ (∀ pulls, streamAppends (get_queue_stream pulls) = pulledMsgs pulls)
      ∧ (∀ pulls, streamEmits (get_queue_stream pulls)
            = (pulledMsgs pulls).map QueueMessage.payload)
      ∧ (∀ (results : List Bool) (pending : List QueueMessage),
          (walkResults results pending).pending
            = pending.drop results.length) := by
  refine ⟨fun m rest => rfl, ?_, ?_,
    fun results pending => walkResults_pending results pending⟩
  · intro pulls
    induction pulls with
    | nil => rfl
    | cons ev rest ih =>
      cases ev <;> simp [get_queue_stream, streamAppends, pulledMsgs, ih]
  · intro pulls
    induction pulls with
    | nil => rfl
    | cons ev rest ih =>
      cases ev <;> simp [get_queue_stream, streamEmits, pulledMsgs, ih]

/-- C4: the worker loop contains every cycle-ending exception: whatever
exception ends cycle i (queue pull, bulk call, or acknowledgment walk), the
loop catches and logs it; the loop produces a log entry for every cycle
(nothing propagates out or terminates the worker early), and each iteration
restarts the consume→flush cycle with a freshly acquired connection and a
fresh cycle state. -/
theorem worker_loop_contains_exceptions (bulk_timeout : Nat)
    (cycles : List CycleInput) (n i : Nat) (hi : i < cycles.length) :
    (flush_to_es bulk_timeout cycles n).length = cycles.length
      ∧ (flush_to_es bulk_timeout cycles n).getD i defaultLog
          = ⟨n + i, runCycle BULK_SIZE (cycles.getD i defaultCycleInput)⟩ :=
  ⟨flush_to_es_length bulk_timeout cycles n,
   flush_to_es_getD bulk_timeout cycles n i hi⟩

/-- Witness for C4: a two-cycle trace — a timeout-ended cycle followed by a
broker-error-ended cycle — in which the worker logs both cycles and the
second runs on the next fresh connection. -/
theorem worker_loop_contains_exceptions_witness :
    1 < ([⟨[PullEvent.timeout], fun _ => BulkOutcome.ok []⟩,
          ⟨[PullEvent.brokerError], fun _ => BulkOutcome.ok []⟩] :
            List CycleInput).length
      ∧ ((flush_to_es 60
            [⟨[PullEvent.timeout], fun _ => BulkOutcome.ok []⟩,
             ⟨[PullEvent.brokerError], fun _ => BulkOutcome.ok []⟩] 0).length
          = ([⟨[PullEvent.timeout], fun _ => BulkOutcome.ok []⟩,
              ⟨[PullEvent.brokerError], fun _ => BulkOutcome.ok []⟩] :
                List CycleInput).length
        ∧ (flush_to_es 60
            [⟨[PullEvent.timeout], fun _ => BulkOutcome.ok []⟩,
             ⟨[PullEvent.brokerError], fun _ => BulkOutcome.ok []⟩] 0).getD 1
              defaultLog
          = ⟨0 + 1, runCycle BULK_SIZE
              (([⟨[PullEvent.timeout], fun _ => BulkOutcome.ok []⟩,
                 ⟨[PullEvent.brokerError], fun _ => BulkOutcome.ok []⟩] :
                   List CycleInput).getD 1 defaultCycleInput)⟩) :=
  ⟨by decide,
   worker_loop_contains_exceptions 60
     [⟨[PullEvent.timeout], fun _ => BulkOutcome.ok []⟩,
      ⟨[PullEvent.brokerError], fun _ => BulkOutcome.ok []⟩] 0 1 (by decide)⟩

/-- C10: acknowledgment happens only in the pulling cycle: the messages
cycle i acknowledges — and those it abandons unacknowledged when an
exception interrupts it — all come from cycle i's own pulls; every
acknowledged message sits at a walk position whose result reported success;
and each loop iteration rebuilds the cycle from a brand-new empty pending
list and stream, independent of every earlier cycle. -/
theorem ack_only_in_pulling_cycle (bulk_timeout : Nat)
    (cycles : List CycleInput) (n i : Nat) (hi : i < cycles.length) :
    (∀ x ∈ ((flush_to_es bulk_timeout cycles n).getD i defaultLog).result.acked,
        x ∈ pulledMsgs ((cycles.getD i defaultCycleInput).pulls))
      ∧ (∀ x ∈ ((flush_to_es bulk_timeout cycles n).getD i
            defaultLog).result.abandoned,
          x ∈ pulledMsgs ((cycles.getD i defaultCycleInput).pulls))
      ∧ (∀ (results : List Bool) (pending : List QueueMessage)
            (x : QueueMessage), x ∈ (walkResults results pending).acked →
          ∃ k, k < results.length ∧ k < pending.length
            ∧ results.getD k false = true ∧ pending.getD k defaultMsg = x)
      ∧ ((flush_to_es bulk_timeout cycles n).getD i defaultLog).result
          = runCycle BULK_SIZE (cycles.getD i defaultCycleInput) := by
  have hflush := flush_to_es_getD bulk_timeout cycles n i hi
  rw [hflush]
  refine ⟨?_, ?_,
    fun results pending x hx => walkResults_acked_mem results pending x hx, rfl⟩
  · intro x hx
    have hmem := (runCycleAux_mem BULK_SIZE
      (cycles.getD i defaultCycleInput).bulk
      (cycles.getD i defaultCycleInput).pulls ⟨[], [], 0, [], []⟩).1 x
      (by simpa [runCycle] using hx)
    rcases hmem with h | h | h
    · simp at h
    · simp at h
    · exact h
  · intro x hx
    have hmem := (runCycleAux_mem BULK_SIZE
      (cycles.getD i defaultCycleInput).bulk
      (cycles.getD i defaultCycleInput).pulls ⟨[], [], 0, [], []⟩).2 x
      (by simpa [runCycle] using hx)
    rcases hmem with h | h
    · simp at h
    · exact h

/-- Witness for C10 at a one-cycle trace that pulls one message and then
times out: the abandoned message comes from that cycle's own pulls. -/
theorem ack_only_in_pulling_cycle_witness :
    0 < ([oneMsgThenTimeout] : List CycleInput).length
      ∧ ((∀ x ∈ ((flush_to_es 60 [oneMsgThenTimeout] 0).getD 0
              defaultLog).result.acked,
            x ∈ pulledMsgs (([oneMsgThenTimeout] : List CycleInput).getD 0
              defaultCycleInput).pulls)
          ∧ (∀ x ∈ ((flush_to_es 60 [oneMsgThenTimeout] 0).getD 0
                defaultLog).result.abandoned,
              x ∈ pulledMsgs (([oneMsgThenTimeout] : List CycleInput).getD 0
                defaultCycleInput).pulls)
          ∧ (∀ (results : List Bool) (pending : List QueueMessage)
                (x : QueueMessage), x ∈ (walkResults results pending).acked →
              ∃ k, k < results.length ∧ k < pending.length
                ∧ results.getD k false = true ∧ pending.getD k defaultMsg = x)
          ∧ ((flush_to_es 60 [oneMsgThenTimeout] 0).getD 0 defaultLog).result
              = runCycle BULK_SIZE (([oneMsgThenTimeout] :
                  List CycleInput).getD 0 defaultCycleInput)) :=
  ⟨by decide, ack_only_in_pulling_cycle 60 [oneMsgThenTimeout] 0 0 (by decide)⟩

/-- C5 amended: when the queue pull times out with no message, kombu's
`Queue.Empty` propagates out of the consumer generator and is caught and
logged by the worker loop's `except` clause like any other exception; no
bulk-write call occurs for the empty round, nothing is appended to the
PendingAckList, and the loop immediately begins the next consume cycle with
a fresh connection, a fresh pending list, and a fresh stream. -/
theorem timeout_empty_cycle (chunk_size bulk_timeout n : Nat)
    (bulk : Nat → BulkOutcome) (rest : List CycleInput) :
    runCycle chunk_size ⟨[PullEvent.timeout], bulk⟩
        = ⟨[], [], [], some PyExc.empty⟩
      ∧ flush_to_es bulk_timeout (⟨[PullEvent.timeout], bulk⟩ :: rest) n
          = ⟨n, runCycle BULK_SIZE ⟨[PullEvent.timeout], bulk⟩⟩
              :: flush_to_es bulk_timeout rest (n + 1) :=
  ⟨rfl, rfl⟩

/-- C5 counterexample: a timed-out pull does not let the consumer keep
yielding with no error observed — the cycle ends with a caught-and-logged
`Queue.Empty` exception (the same handling path as genuine errors), refuting
the claim that the timeout condition is not treated as an error. -/
theorem timeout_logged_as_error_counterexample :
    (runCycle BULK_SIZE ⟨[PullEvent.timeout],
        fun _ => BulkOutcome.ok []⟩).caught = some PyExc.empty
      ∧ ¬((runCycle BULK_SIZE ⟨[PullEvent.timeout],
          fun _ => BulkOutcome.ok []⟩).caught = none) :=
  ⟨rfl, by decide⟩

/-- C6 counterexample: for a document whose `meniscus` sub-document lacks the
required `tenant` field, `put_message` catches the `KeyError`, logs it, and
answers `put_message.retry()` — the failure is retried rather than surfaced
unretried to the originating caller, refuting the claim. -/
theorem missing_field_retried_counterexample :
    put_message env0 badMsg = TaskOutcome.retried (PyExc.keyError "tenant")
      ∧ (put_message env0 badMsg).isRetried = true :=
  ⟨rfl, rfl⟩

/-- C6 amended: with a healthy broker, `put_message` ends in
`put_message.retry()` exactly when the required-field lookups
(`message['meniscus']['tenant']`, `message['meniscus']['correlation']
['pattern']`) raise; the first exception raised is the one caught, logged,
and retried, and when the lookups succeed the task publishes the built index
action instead.  No failure is surfaced unretried: every exception in the
`try` block leads to a retry. -/
theorem put_message_retries_missing_field (env : EncodeEnv) (message : Json)
    (hpub : env.publishOutcome = none) :
    ((put_message env message).isRetried = true
        ↔ ∃ e, encodeFields message = Except.error e)
      ∧ (∀ e, encodeFields message = Except.error e →
          put_message env message = TaskOutcome.retried e)
      ∧ (∀ tenant pattern,
          encodeFields message = Except.ok (tenant, pattern) →
          put_message env message
            = TaskOutcome.published (indexActionDict env tenant pattern message)) := by
  have hred := put_message_eq env message
  refine ⟨?_, ?_, ?_⟩
  · cases h : encodeFields message with
    | ok tp =>
      cases tp with
      | mk tenant pattern =>
        rw [h] at hred
        simp only [_queue_index_request, hpub] at hred
        simp [hred, TaskOutcome.isRetried, h]
    | error e =>
      rw [h] at hred
      simp [hred, TaskOutcome.isRetried, h]
  · intro e he
    rw [he] at hred
    exact hred
  · intro tenant pattern he
    rw [he] at hred
    simpa only [_queue_index_request, hpub] using hred

/-- Witness for C6 at the malformed sample document and a healthy broker. -/
theorem put_message_retries_missing_field_witness :
    env0.publishOutcome = none
      ∧ (((put_message env0 badMsg).isRetried = true
            ↔ ∃ e, encodeFields badMsg = Except.error e)
          ∧ (∀ e, encodeFields badMsg = Except.error e →
              put_message env0 badMsg = TaskOutcome.retried e)
          ∧ (∀ tenant pattern,
              encodeFields badMsg = Except.ok (tenant, pattern) →
              put_message env0 badMsg
                = TaskOutcome.published
                    (indexActionDict env0 tenant pattern badMsg))) :=
  ⟨rfl, put_message_retries_missing_field env0 badMsg rfl⟩

/-- C7: for a correlated document with both required fields present and a
healthy broker, the encoder publishes an index action whose serialized form
has exactly the fields `_index`, `_type`, `_id`, `_ttl`, `_source` — with
`_index` the document's tenant, `_type` its correlation pattern, `_id` the
freshly drawn uuid token, `_ttl` the configured expiry, and `_source` the
original document unchanged; and the uuid supply never yields the same token
on two distinct draws. -/
theorem encoder_action_shape (env : EncodeEnv)
    (message men corr tenant pattern : Json)
    (h1 : message.getItem "meniscus" = Except.ok men)
    (h2 : men.getItem "tenant" = Except.ok tenant)
    (h3 : men.getItem "correlation" = Except.ok corr)
    (h4 : corr.getItem "pattern" = Except.ok pattern)
    (hpub : env.publishOutcome = none) :
    put_message env message
        = TaskOutcome.published (Json.obj
            [("_index", tenant), ("_type", pattern),
             ("_id", Json.str (uuidStr env.uuidState)),
             ("_ttl", env.TTL), ("_source", message)])
      ∧ (indexActionDict env tenant pattern message).keys
          = ["_index", "_type", "_id", "_ttl", "_source"]
      ∧ (∀ n m : Nat, n ≠ m → uuidStr n ≠ uuidStr m) := by
  have henc : encodeFields message = Except.ok (tenant, pattern) := by
    simp [encodeFields, h1, h2, h3, h4, bind, Except.bind, pure, Except.pure]
  have hred := put_message_eq env message
  rw [henc] at hred
  refine ⟨?_, rfl, fun n m hnm he => hnm (uuidStr_injective he)⟩
  rw [hred]
  simp [_queue_index_request, hpub, indexActionDict]

/-- Witness for C7 at the well-formed sample document. -/
theorem encoder_action_shape_witness :
    goodMsg.getItem "meniscus" = Except.ok goodMen
      ∧ goodMen.getItem "tenant" = Except.ok (Json.str "t1")
      ∧ goodMen.getItem "correlation" = Except.ok goodCorr
      ∧ goodCorr.getItem "pattern" = Except.ok (Json.str "p1")
      ∧ env0.publishOutcome = none
      ∧ (put_message env0 goodMsg
            = TaskOutcome.published (Json.obj
                [("_index", Json.str "t1"), ("_type", Json.str "p1"),
                 ("_id", Json.str (uuidStr env0.uuidState)),
                 ("_ttl", env0.TTL), ("_source", goodMsg)])
          ∧ (indexActionDict env0 (Json.str "t1") (Json.str "p1") goodMsg).keys
              = ["_index", "_type", "_id", "_ttl", "_source"]
          ∧ (∀ n m : Nat, n ≠ m → uuidStr n ≠ uuidStr m)) :=
  ⟨rfl, rfl, rfl, rfl, rfl,
   encoder_action_shape env0 goodMsg goodMen goodCorr (Json.str "t1")
     (Json.str "p1") rfl rfl rfl rfl rfl⟩

/-- C8 (code bug): a streamer constructed with `bulk_size = 1` stores that
value, yet a worker it starts submits a bulk chunk of `BULK_SIZE` payloads —
`start` maps only `self.bulk_timeout` over the pool and `flush_to_es` chunks
with the module-level `BULK_SIZE`, so the configured `bulk_size` never
reaches the flush engine and the chunk exceeds the configured bound. -/
theorem configured_bulk_size_ignored :
    (mkBulker 1 60 (some 4) 8).bulk_size = 1
      ∧ (((runStartedWorker (mkBulker 1 60 (some 4) 8)
              [fullChunkCycle]).getD 0 defaultLog).result.bulkCalls.getD 0
            []).length = BULK_SIZE
      ∧ (mkBulker 1 60 (some 4) 8).bulk_size
          < (((runStartedWorker (mkBulker 1 60 (some 4) 8)
              [fullChunkCycle]).getD 0 defaultLog).result.bulkCalls.getD 0
            []).length := by
  refine ⟨rfl, ?_, ?_⟩ <;> decide

/-- C9 (code bug): `start` defines the local `signal_handler` — whose body is
`pool.close()`, `pool.join()`, log, `sys.exit(0)` — but never registers it
with `signal.signal`, so no handler is installed for any signal and a
delivered termination signal falls to the default disposition, killing the
process abruptly without the close/join shutdown sequence and without
waiting for any worker to exit. -/
theorem termination_signal_not_handled (self : ElasticSearchStreamBulker) :
    deliverTermSignal self.start = SignalOutcome.defaultAbruptKill
      ∧ self.start.registeredSignals = []
      ∧ signal_handler
          = [ShutdownStep.poolClose, ShutdownStep.poolJoin,
             ShutdownStep.logStopped, ShutdownStep.sysExit] :=
  ⟨rfl, rfl, rfl⟩

end Meniscus
